import Mathlib

/-!
Shallow embedding of the frame-streaming engine of vision-vm
(src/streaming_server.py): the shared capture-region store, the TCP
command channel (`command_server`), and the per-client streaming loop
(`handle_client` with `capture_png`), together with theorems settling
the frozen claims about them.

Numeric JSON values are modelled by `PyFloat` (Python's `json.loads`
accepts the tokens NaN, Infinity and -Infinity by default, so a parsed
number can be non-finite).  Byte strings are `List Nat` with each entry
a byte.  The IEEE-754 bit pattern of the timestamp double is not
modelled bit-by-bit: a wire frame carries the timestamp as a `PyFloat`
value in its dedicated 8-byte header slot.
-/

/-- A Python float as it arrives from `json.loads`: finite, NaN or an
infinity.  `float()` applied to such a value is the identity. -/
inductive PyFloat where
  | finite (q : Rat)
  | nan
  | inf
  | ninf
deriving DecidableEq, Repr

/-- An mss-style capture rectangle (the four ints handed to `sct.grab`). -/
structure Rect where
  top : Int
  left : Int
  width : Int
  height : Int
deriving DecidableEq, Repr

/-- The global `capture_region` dict of streaming_server.py: four
rectangle fields plus the telemetry fields, guarded by `_region_lock`. -/
structure CaptureRegion where
  top : Int
  left : Int
  width : Int
  height : Int
  current_time : PyFloat
  duration : PyFloat
  is_ended : Bool
  video_status : String
deriving DecidableEq, Repr

/-- The initial value of `capture_region` at server start
(streaming_server.py lines 45-54). -/
def initialRegion : CaptureRegion :=
  { top := 0, left := 0, width := 1280, height := 720,
    current_time := .finite 0, duration := .finite 0,
    is_ended := false, video_status := "playing" }

/-- A decoded command-channel JSON message: the fields `command_server`
ever reads, each `Option` because `msg.get` / `"k" in msg` tolerate
absence.  (`json.loads` yields a dict; only these keys are consulted.) -/
structure Msg where
  command : Option String := none
  top : Option Int := none
  left : Option Int := none
  width : Option Int := none
  height : Option Int := none
  current_time : Option PyFloat := none
  is_ended : Option Bool := none
  video_status : Option String := none
  duration : Option PyFloat := none
deriving DecidableEq, Repr

/-- A reply written back on the command connection. -/
inductive Resp where
  | ok
  | err (message : String)
  | statusReply (region : CaptureRegion) (fps : PyFloat) (clients : Int)
deriving DecidableEq, Repr

/-- One dispatch of `command_server` on a successfully parsed message
(streaming_server.py lines 85-138).  Returns the new store and the
reply sent, `none` when no reply is sent: an unrecognised `command`
falls through the `elif` chain straight to `conn.close()`, and a
`region_update` missing one of its four keys raises `KeyError` before
any mutation, caught by the outer `except` with no reply. -/
def handleMsg (fps : PyFloat) (clients : Int) (st : CaptureRegion)
    (msg : Msg) : CaptureRegion × Option Resp :=
  match msg.command with
  | some "status" =>
      (st, some (.statusReply st fps clients))
  | some "region_update" =>
      match msg.top, msg.left, msg.width, msg.height with
      | some t, some l, some w, some h =>
          if w ≤ 0 ∨ h ≤ 0 then
            (st, some (.err "invalid dimensions"))
          else
            ({ st with top := t, left := l, width := w, height := h },
             some .ok)
      | _, _, _, _ => (st, none)
  | some "set_duration" =>
      ({ st with duration := msg.duration.getD (.finite 0) }, some .ok)
  | some "update_telemetry" =>
      let st1 := { st with
        current_time := msg.current_time.getD (.finite 0),
        is_ended := msg.is_ended.getD false }
      let st2 := match msg.video_status with
        | some s => { st1 with video_status := s }
        | none => st1
      (st2, some .ok)
  | _ => (st, none)

/-- One accepted command connection: `req = none` models a body that
`json.loads` rejects (the exception is caught at line 139: no reply,
no mutation); otherwise the message is dispatched. -/
def handleConn (fps : PyFloat) (clients : Int) (st : CaptureRegion)
    (req : Option Msg) : CaptureRegion × Option Resp :=
  match req with
  | none => (st, none)
  | some msg => handleMsg fps clients st msg

/-- The `while True` accept loop of `command_server`: requests are
served strictly one after another; an error on one request never stops
the loop. -/
def commandLoop (fps : PyFloat) (clients : Int) (st : CaptureRegion) :
    List (Option Msg) → CaptureRegion × List (Option Resp)
  | [] => (st, [])
  | r :: rs =>
      let p := handleConn fps clients st r
      let q := commandLoop fps clients p.1 rs
      (q.1, p.2 :: q.2)

/-- The bytes `command_server` parses for one connection: a single
`conn.recv(4096)` (line 79), i.e. at most 4096 bytes taken from the
first delivery on the socket; later deliveries are never read. -/
def recvOnce (deliveries : List (List Nat)) : List Nat :=
  (deliveries.headD []).take 4096

/-- One connection end-to-end: the single `recv`, the empty-payload
early `continue` (lines 80-82), then parsing and dispatch.  `parse`
stands for `json.loads` composed with field extraction; `parse` is a
parameter because only which bytes reach it matters here. -/
def serveConn (parse : List Nat → Option Msg) (fps : PyFloat)
    (clients : Int) (st : CaptureRegion) (deliveries : List (List Nat)) :
    CaptureRegion × Option Resp :=
  let data := recvOnce deliveries
  if data = [] then (st, none)
  else handleConn fps clients st (parse data)

/-- Convenience constructor for a `region_update` request. -/
def regionUpdateMsg (t l w h : Int) : Msg :=
  { command := some "region_update",
    top := some t, left := some l, width := some w, height := some h }

/-- C1: a valid region update replies ok, installs exactly the four
requested rectangle fields, and leaves every telemetry field of the
store (current_time, duration, is_ended, video_status) unchanged. -/
theorem c1_region_update_applies (fps : PyFloat) (clients : Int)
    (st : CaptureRegion) (t l w h : Int) (hw : 0 < w) (hh : 0 < h) :
    (handleMsg fps clients st (regionUpdateMsg t l w h)).1.top = t ∧
    (handleMsg fps clients st (regionUpdateMsg t l w h)).1.left = l ∧
    (handleMsg fps clients st (regionUpdateMsg t l w h)).1.width = w ∧
    (handleMsg fps clients st (regionUpdateMsg t l w h)).1.height = h ∧
    (handleMsg fps clients st (regionUpdateMsg t l w h)).1.current_time
      = st.current_time ∧
    (handleMsg fps clients st (regionUpdateMsg t l w h)).1.duration
      = st.duration ∧
    (handleMsg fps clients st (regionUpdateMsg t l w h)).1.is_ended
      = st.is_ended ∧
    (handleMsg fps clients st (regionUpdateMsg t l w h)).1.video_status
      = st.video_status ∧
    (handleMsg fps clients st (regionUpdateMsg t l w h)).2 = some .ok := by
  have hcond : ¬ (w ≤ 0 ∨ h ≤ 0) := by omega
  simp [handleMsg, regionUpdateMsg, hcond]

/-- C1 witness: the theorem applied at a concrete store and request. -/
theorem c1_witness :
    (handleMsg (.finite 0) 0 initialRegion (regionUpdateMsg 10 20 640 480)).1.top = 10 ∧
    (handleMsg (.finite 0) 0 initialRegion (regionUpdateMsg 10 20 640 480)).1.left = 20 ∧
    (handleMsg (.finite 0) 0 initialRegion (regionUpdateMsg 10 20 640 480)).1.width = 640 ∧
    (handleMsg (.finite 0) 0 initialRegion (regionUpdateMsg 10 20 640 480)).1.height = 480 ∧
    (handleMsg (.finite 0) 0 initialRegion (regionUpdateMsg 10 20 640 480)).1.current_time
      = initialRegion.current_time ∧
    (handleMsg (.finite 0) 0 initialRegion (regionUpdateMsg 10 20 640 480)).1.duration
      = initialRegion.duration ∧
    (handleMsg (.finite 0) 0 initialRegion (regionUpdateMsg 10 20 640 480)).1.is_ended
      = initialRegion.is_ended ∧
    (handleMsg (.finite 0) 0 initialRegion (regionUpdateMsg 10 20 640 480)).1.video_status
      = initialRegion.video_status ∧
    (handleMsg (.finite 0) 0 initialRegion (regionUpdateMsg 10 20 640 480)).2 = some .ok :=
  c1_region_update_applies (.finite 0) 0 initialRegion 10 20 640 480
    (by decide) (by decide)

/-- C2: a region update with non-positive width or height replies
exactly the error message invalid dimensions and leaves the whole
store unchanged. -/
theorem c2_region_update_rejected (fps : PyFloat) (clients : Int)
    (st : CaptureRegion) (t l w h : Int) (hbad : w ≤ 0 ∨ h ≤ 0) :
    handleMsg fps clients st (regionUpdateMsg t l w h)
      = (st, some (.err "invalid dimensions")) := by
  simp [handleMsg, regionUpdateMsg, hbad]

/-- C2 witness: width 0 is rejected and the store is untouched. -/
theorem c2_witness :
    handleMsg (.finite 0) 0 initialRegion (regionUpdateMsg 5 5 0 480)
      = (initialRegion, some (.err "invalid dimensions")) :=
  c2_region_update_rejected (.finite 0) 0 initialRegion 5 5 0 480
    (Or.inl (by decide))

/-- Convenience constructor for a `set_duration` request. -/
def setDurationMsg (v : PyFloat) : Msg :=
  { command := some "set_duration", duration := some v }

/-- Convenience constructor for an `update_telemetry` request. -/
def telemetryMsg (ct : Option PyFloat) (ie : Option Bool)
    (vs : Option String) (du : Option PyFloat) : Msg :=
  { command := some "update_telemetry", current_time := ct,
    is_ended := ie, video_status := vs, duration := du }

/-- C4 counterexample: `set_duration` with duration NaN stores NaN, not
0.0 — `command_server` performs no sanitization of non-finite floats
(line 127 is a bare `float(msg.get(..))`). -/
theorem c4_counterexample :
    (handleMsg (.finite 0) 0 initialRegion (setDurationMsg .nan)).1.duration
      = PyFloat.nan ∧
    PyFloat.nan ≠ PyFloat.finite 0 ∧
    (handleMsg (.finite 0) 0 initialRegion (setDurationMsg .nan)).2
      = some .ok := by
  refine ⟨by simp [handleMsg, setDurationMsg], by decide,
    by simp [handleMsg, setDurationMsg]⟩

/-- C4 amended: the numeric input of `set_duration` and the
current_time of `update_telemetry` are stored exactly as received —
non-finite values included, with no sanitization — and the command
still replies ok. -/
theorem c4_amended_raw_storage (fps : PyFloat) (clients : Int)
    (st : CaptureRegion) (v : PyFloat) :
    (handleMsg fps clients st (setDurationMsg v)).1.duration = v ∧
    (handleMsg fps clients st (setDurationMsg v)).2 = some .ok ∧
    (handleMsg fps clients st (telemetryMsg (some v) none none none)).1.current_time = v ∧
    (handleMsg fps clients st (telemetryMsg (some v) none none none)).2 = some .ok := by
  refine ⟨?_, ?_, ?_, ?_⟩ <;> simp [handleMsg, setDurationMsg, telemetryMsg]

/-- C5 counterexample: an `update_telemetry` request that omits
current_time overwrites the stored current_time with 0.0 instead of
leaving it unchanged (line 132 uses `msg.get` with default 0.0). -/
theorem c5_counterexample :
    ({ initialRegion with current_time := .finite 5 } : CaptureRegion).current_time
      = PyFloat.finite 5 ∧
    (handleMsg (.finite 0) 0 { initialRegion with current_time := .finite 5 }
        (telemetryMsg none none none none)).1.current_time
      = PyFloat.finite 0 ∧
    PyFloat.finite 0 ≠ PyFloat.finite 5 := by
  refine ⟨rfl, by simp [handleMsg, telemetryMsg], by decide⟩

/-- C5 amended: `update_telemetry` always writes current_time and
is_ended, substituting 0.0 and False when they are omitted;
video_status is merged only when present; and a duration field in the
request is ignored — update_telemetry never writes duration. -/
theorem c5_amended_telemetry_merge (fps : PyFloat) (clients : Int)
    (st : CaptureRegion) (ct : Option PyFloat) (ie : Option Bool)
    (vs : Option String) (du : Option PyFloat) :
    (handleMsg fps clients st (telemetryMsg ct ie vs du)).1.current_time
      = ct.getD (.finite 0) ∧
    (handleMsg fps clients st (telemetryMsg ct ie vs du)).1.is_ended
      = ie.getD false ∧
    (handleMsg fps clients st (telemetryMsg ct ie vs du)).1.video_status
      = vs.getD st.video_status ∧
    (handleMsg fps clients st (telemetryMsg ct ie vs du)).1.duration
      = st.duration ∧
    (handleMsg fps clients st (telemetryMsg ct ie vs du)).1.top = st.top ∧
    (handleMsg fps clients st (telemetryMsg ct ie vs du)).2 = some .ok := by
  cases vs <;> refine ⟨?_, ?_, ?_, ?_, ?_, ?_⟩ <;>
    simp [handleMsg, telemetryMsg]

/-- A command string is unknown when it matches no `elif` branch of
`command_server`. -/
def unknownCommand (msg : Msg) : Prop :=
  msg.command ≠ some "status" ∧ msg.command ≠ some "region_update" ∧
  msg.command ≠ some "set_duration" ∧ msg.command ≠ some "update_telemetry"

/-- C7 counterexample: an unknown command produces no reply at all —
the dispatch falls through every `elif` straight to `conn.close()`, so
the response is `none`, not the error message unknown command. -/
theorem c7_counterexample :
    handleConn (.finite 0) 0 initialRegion
        (some { command := some "bogus" }) = (initialRegion, none) ∧
    (none : Option Resp) ≠ some (.err "unknown command") := by
  exact ⟨by simp [handleConn, handleMsg], by simp⟩

/-- C7 amended: an unknown-command or malformed request mutates no
state and the channel stays usable — the loop handles every later
request exactly as it would have without the bad one — but the server
sends no reply at all for it (the connection is closed or dropped
silently), not a generic error message. -/
theorem c7_amended_no_reply (fps : PyFloat) (clients : Int)
    (st : CaptureRegion) (req : Option Msg) (rest : List (Option Msg))
    (hbad : req = none ∨ ∃ msg, req = some msg ∧ unknownCommand msg) :
    handleConn fps clients st req = (st, none) ∧
    commandLoop fps clients st (req :: rest)
      = ((commandLoop fps clients st rest).1,
         none :: (commandLoop fps clients st rest).2) := by
  have hconn : handleConn fps clients st req = (st, none) := by
    rcases hbad with h | ⟨msg, hmsg, h1, h2, h3, h4⟩
    · simp [h, handleConn]
    · subst hmsg
      simp only [handleConn]
      unfold handleMsg
      split <;> simp_all
  refine ⟨hconn, ?_⟩
  simp [commandLoop, hconn]

/-- C7 witness: a loop containing an unknown command followed by a
valid region update: the bad request gets no reply and the later
update still lands. -/
theorem c7_witness :
    handleConn (.finite 0) 0 initialRegion (some { command := some "nope" })
      = (initialRegion, none) ∧
    commandLoop (.finite 0) 0 initialRegion
        (some { command := some "nope" } :: [some (regionUpdateMsg 1 2 3 4)])
      = ((commandLoop (.finite 0) 0 initialRegion
            [some (regionUpdateMsg 1 2 3 4)]).1,
         none :: (commandLoop (.finite 0) 0 initialRegion
            [some (regionUpdateMsg 1 2 3 4)]).2) :=
  c7_amended_no_reply (.finite 0) 0 initialRegion
    (some { command := some "nope" }) [some (regionUpdateMsg 1 2 3 4)]
    (Or.inr ⟨_, rfl, by decide, by decide, by decide, by decide⟩)

/-- C10: the bytes a command connection handles are exactly the first
at most 4096 bytes of the first socket delivery: nothing past the
first delivery is ever received, so the outcome is identical whatever
arrives later, and a request split across deliveries reaches the
parser truncated (to be rejected as malformed) rather than
reassembled. -/
theorem c10_single_recv (parse : List Nat → Option Msg) (fps : PyFloat)
    (clients : Int) (st : CaptureRegion) (d : List Nat)
    (rest rest' : List (List Nat)) :
    recvOnce (d :: rest) = d.take 4096 ∧
    (recvOnce (d :: rest)).length ≤ 4096 ∧
    serveConn parse fps clients st (d :: rest)
      = serveConn parse fps clients st (d :: rest') := by
  refine ⟨rfl, ?_, rfl⟩
  simp [recvOnce]

/-- struct.pack with format !Q: the k-byte unsigned big-endian encoding
of n (streaming_server.py line 36, HEADER_FMT). -/
def toBytesBE : Nat → Nat → List Nat
  | 0, _ => []
  | k + 1, n => (n / 256 ^ k) % 256 :: toBytesBE k n

/-- Big-endian decoding, as the receiver's struct.unpack reads the
length prefix back (verify_stream.py recv_frame). -/
def fromBytesBE (bs : List Nat) : Nat :=
  bs.foldl (fun acc b => acc * 256 + b) 0

theorem toBytesBE_length (k n : Nat) : (toBytesBE k n).length = k := by
  induction k generalizing n with
  | zero => rfl
  | succ k ih => simp [toBytesBE, ih]

theorem foldl_toBytesBE (k n acc : Nat) :
    (toBytesBE k n).foldl (fun a b => a * 256 + b) acc
      = acc * 256 ^ k + n % 256 ^ k := by
  induction k generalizing n acc with
  | zero => simp [toBytesBE, Nat.mod_one]
  | succ k ih =>
      simp only [toBytesBE, List.foldl_cons, ih]
      rw [pow_succ, Nat.mod_mul]
      ring

theorem fromBytesBE_toBytesBE (k n : Nat) (h : n < 256 ^ k) :
    fromBytesBE (toBytesBE k n) = n := by
  unfold fromBytesBE
  rw [foldl_toBytesBE]
  simp [Nat.mod_eq_of_lt h]

/-- One wire message of the streaming protocol: the 8-byte big-endian
length prefix, the timestamp double (its value; the IEEE-754 bit layout
of the 8-byte slot is not re-derived here), and the payload, written
with a single `conn.sendall(header + png_data)`. -/
structure Frame where
  lenPrefix : List Nat
  timestamp : PyFloat
  payload : List Nat
deriving DecidableEq, Repr

/-- The per-session loop state of `handle_client`: the frame counter
`f_count` and the locally cached capture rectangle `monitor`. -/
structure SessState where
  fCount : Nat
  monitor : Rect
deriving DecidableEq, Repr

/-- The environment one loop iteration observes: the store's rectangle
(read if the tick refreshes), the store's current_time (read after a
successful capture), the capture result (`none` models a grab or
encode failure in `capture_png`), and the time the iteration's work
took before the sleep. -/
structure Tick where
  storeRect : Rect
  storeTime : PyFloat
  capture : Option (List Nat)
  elapsed : Rat
deriving DecidableEq, Repr

/-- One iteration of the `while True` loop of `handle_client`
(streaming_server.py lines 215-253): refresh the cached rectangle when
`f_count % 10 == 0`; on capture failure emit nothing, keep `f_count`,
and sleep the full `interval`; on success emit the framed payload with
the fresh current_time, bump `f_count`, and sleep
`max 0 (interval - elapsed)`.  Returns (new state, emitted frame,
sleep duration). -/
def sessionTick (interval : Rat) (s : SessState) (tk : Tick) :
    SessState × Option Frame × Rat :=
  let monitor := if s.fCount % 10 = 0 then tk.storeRect else s.monitor
  match tk.capture with
  | none => (⟨s.fCount, monitor⟩, none, interval)
  | some payload =>
      (⟨s.fCount + 1, monitor⟩,
       some ⟨toBytesBE 8 payload.length, tk.storeTime, payload⟩,
       max 0 (interval - tk.elapsed))

/-- Running the session loop over a sequence of ticks, collecting the
emitted frames in the order they are written to the socket. -/
def sessionRun (interval : Rat) (s : SessState) :
    List Tick → SessState × List Frame
  | [] => (s, [])
  | tk :: ts =>
      let p := sessionTick interval s tk
      let q := sessionRun interval p.1 ts
      (q.1, p.2.1.toList ++ q.2)

/-- The frame a single tick contributes: none on capture failure,
otherwise the length-prefixed payload stamped with that tick's
current_time. -/
def emitOf (tk : Tick) : Option Frame :=
  tk.capture.map fun p => ⟨toBytesBE 8 p.length, tk.storeTime, p⟩

theorem sessionRun_frames (interval : Rat) (s : SessState)
    (ts : List Tick) :
    (sessionRun interval s ts).2 = ts.filterMap emitOf := by
  induction ts generalizing s with
  | nil => rfl
  | cons tk ts ih =>
      cases hc : tk.capture <;>
        simp [sessionRun, sessionTick, emitOf, hc, ih]

/-- C3: every frame a session emits is its payload preceded by an
8-byte big-endian length prefix that decodes to exactly the payload's
byte length, stamped with the store's current_time at emission, and
the emitted frames are precisely the successful ticks' frames in
capture order — one frame per successful tick, nothing interleaved. -/
theorem c3_wire_format (interval : Rat) (s : SessState) (ts : List Tick) :
    (sessionRun interval s ts).2 = ts.filterMap emitOf ∧
    ∀ f ∈ (sessionRun interval s ts).2,
      f.lenPrefix.length = 8 ∧
      (f.payload.length < 2 ^ 64 →
        fromBytesBE f.lenPrefix = f.payload.length) := by
  refine ⟨sessionRun_frames interval s ts, ?_⟩
  intro f hf
  rw [sessionRun_frames] at hf
  obtain ⟨tk, _htk, hemit⟩ := List.mem_filterMap.mp hf
  obtain ⟨p, _hp, hfr⟩ := Option.map_eq_some'.mp hemit
  subst hfr
  refine ⟨toBytesBE_length 8 p.length, fun hlt => ?_⟩
  exact fromBytesBE_toBytesBE 8 p.length (by norm_num at hlt ⊢; exact hlt)

/-- C3 witness: a one-tick session with a 3-byte payload, its emitted
frame's prefix decoding back to 3. -/
theorem c3_witness :
    (Frame.mk (toBytesBE 8 3) (PyFloat.finite 2) [7, 8, 9]).lenPrefix.length = 8 ∧
    fromBytesBE (Frame.mk (toBytesBE 8 3) (PyFloat.finite 2) [7, 8, 9]).lenPrefix = 3 := by
  have h := (c3_wire_format 1 ⟨0, ⟨0, 0, 1, 1⟩⟩
      [⟨⟨0, 0, 1, 1⟩, .finite 2, some [7, 8, 9], 0⟩]).2
      (Frame.mk (toBytesBE 8 3) (PyFloat.finite 2) [7, 8, 9]) (by decide)
  exact ⟨h.1, h.2 (by norm_num)⟩

/-- C6 counterexample: the claim says a failed tick sleeps the
remainder of the tick period.  At interval 1/30 with 1/60 already
elapsed when the grab fails, the code sleeps the full 1/30
(`time.sleep(interval)` on line 224), while the remainder would be
1/60; the two differ. -/
theorem c6_counterexample :
    (sessionTick (1 / 30) ⟨1, ⟨0, 0, 1, 1⟩⟩
        ⟨⟨0, 0, 1, 1⟩, .finite 0, none, 1 / 60⟩).2.2 = 1 / 30 ∧
    max (0 : Rat) (1 / 30 - 1 / 60) = 1 / 60 ∧
    (1 / 30 : Rat) ≠ 1 / 60 := by
  refine ⟨rfl, ?_, by norm_num⟩
  rw [max_eq_right (by norm_num)]
  norm_num

/-- C6 amended: on a transient capture or encode failure the session
does not terminate — the tick emits nothing, the frame counter does
not advance (the frame is skipped once, not retried), the session
sleeps one full tick period (not merely the remainder), and the run
continues so that the following ticks' frames are emitted normally. -/
theorem c6_amended_skip_tick (interval : Rat) (s : SessState)
    (tk : Tick) (ts : List Tick) (hfail : tk.capture = none) :
    (sessionTick interval s tk).2.1 = none ∧
    (sessionTick interval s tk).1.fCount = s.fCount ∧
    (sessionTick interval s tk).2.2 = interval ∧
    (sessionRun interval s (tk :: ts)).2 = ts.filterMap emitOf := by
  refine ⟨?_, ?_, ?_, ?_⟩
  · simp [sessionTick, hfail]
  · simp [sessionTick, hfail]
  · simp [sessionTick, hfail]
  · rw [sessionRun_frames]
    simp [List.filterMap_cons, emitOf, hfail]

/-- C6 witness: a failing tick followed by a successful one — nothing
emitted for the failure, a full-interval sleep, and the next tick's
frame emitted. -/
theorem c6_witness :
    (sessionTick 1 ⟨0, ⟨0, 0, 1, 1⟩⟩
        ⟨⟨0, 0, 1, 1⟩, .finite 0, none, 0⟩).2.1 = none ∧
    (sessionTick 1 ⟨0, ⟨0, 0, 1, 1⟩⟩
        ⟨⟨0, 0, 1, 1⟩, .finite 0, none, 0⟩).1.fCount = 0 ∧
    (sessionTick 1 ⟨0, ⟨0, 0, 1, 1⟩⟩
        ⟨⟨0, 0, 1, 1⟩, .finite 0, none, 0⟩).2.2 = 1 ∧
    (sessionRun 1 ⟨0, ⟨0, 0, 1, 1⟩⟩
        [⟨⟨0, 0, 1, 1⟩, .finite 0, none, 0⟩,
         ⟨⟨0, 0, 1, 1⟩, .finite 3, some [5], 0⟩]).2
      = [⟨⟨0, 0, 1, 1⟩, .finite 3, some [5], 0⟩].filterMap emitOf :=
  c6_amended_skip_tick 1 ⟨0, ⟨0, 0, 1, 1⟩⟩
    ⟨⟨0, 0, 1, 1⟩, .finite 0, none, 0⟩
    [⟨⟨0, 0, 1, 1⟩, .finite 3, some [5], 0⟩] rfl

theorem sessionTick_monitor (interval : Rat) (s : SessState) (tk : Tick) :
    (sessionTick interval s tk).1.monitor
      = if s.fCount % 10 = 0 then tk.storeRect else s.monitor := by
  cases hc : tk.capture <;> simp [sessionTick, hc]

theorem sessionTick_fCount_succ (interval : Rat) (s : SessState)
    (tk : Tick) (h : tk.capture.isSome = true) :
    (sessionTick interval s tk).1.fCount = s.fCount + 1 := by
  cases hc : tk.capture with
  | none => rw [hc] at h; cases h
  | some p => simp [sessionTick, hc]

theorem sessionRun_append_state (interval : Rat) (s : SessState)
    (xs ys : List Tick) :
    (sessionRun interval s (xs ++ ys)).1
      = (sessionRun interval (sessionRun interval s xs).1 ys).1 := by
  induction xs generalizing s with
  | nil => rfl
  | cons tk xs ih => simp [sessionRun, ih]

/-- Once the cached rectangle agrees with the store and the store
keeps the value, every later tick keeps capturing against it. -/
theorem sessionRun_monitor_persists (interval : Rat) (r : Rect)
    (s : SessState) (ts : List Tick) (hs : s.monitor = r)
    (hrect : ∀ tk ∈ ts, tk.storeRect = r) :
    (sessionRun interval s ts).1.monitor = r := by
  induction ts generalizing s with
  | nil => exact hs
  | cons tk ts ih =>
      have hmon : (sessionTick interval s tk).1.monitor = r := by
        rw [sessionTick_monitor]
        split
        · exact hrect tk (by simp)
        · exact hs
      simp only [sessionRun]
      exact ih _ hmon fun u hu => hrect u (by simp [hu])

theorem sessionRun_fCount (interval : Rat) (s : SessState)
    (ts : List Tick) (hsucc : ∀ tk ∈ ts, tk.capture.isSome = true) :
    (sessionRun interval s ts).1.fCount = s.fCount + ts.length := by
  induction ts generalizing s with
  | nil => rfl
  | cons tk ts ih =>
      simp only [sessionRun]
      rw [ih _ fun u hu => hsucc u (by simp [hu]),
        sessionTick_fCount_succ interval s tk (hsucc tk (by simp))]
      simp
      omega

/-- C8: the cached rectangle is re-read from the store exactly on the
ticks where `f_count % 10 == 0` and kept otherwise, so once the store
holds rectangle r, every already-streaming session's cached rectangle
equals r after at most 10 further successful frame ticks — from the
first tick whose counter is divisible by 10 onwards, every capture
uses r. -/
theorem c8_bounded_staleness (interval : Rat) (r : Rect) (s : SessState)
    (ts : List Tick)
    (hrect : ∀ tk ∈ ts, tk.storeRect = r)
    (hsucc : ∀ tk ∈ ts, tk.capture.isSome = true) :
    (10 - s.fCount % 10) % 10 < 10 ∧
    ∀ j, (10 - s.fCount % 10) % 10 < j → j ≤ ts.length →
      (sessionRun interval s (ts.take j)).1.monitor = r := by
  refine ⟨Nat.mod_lt _ (by norm_num), ?_⟩
  intro j hij hjlen
  set i := (10 - s.fCount % 10) % 10 with hidef
  have hilen : i < ts.length := lt_of_lt_of_le hij hjlen
  -- the state reached after the first i ticks has counter ≡ 0 (mod 10)
  have hcount : (sessionRun interval s (ts.take i)).1.fCount % 10 = 0 := by
    rw [sessionRun_fCount interval s (ts.take i)
        fun u hu => hsucc u (List.take_subset _ _ hu)]
    rw [List.length_take, min_eq_left (le_of_lt hilen)]
    omega
  -- processing tick i installs r into the cache
  have hstep : (sessionRun interval s (ts.take (i + 1))).1.monitor = r := by
    rw [List.take_succ, List.getElem?_eq_getElem hilen]
    rw [sessionRun_append_state]
    simp only [Option.toList_some, sessionRun]
    rw [sessionTick_monitor, hcount]
    simp [hrect _ (List.getElem_mem hilen)]
  -- and every tick after that keeps it
  have hsplit : ts.take j = ts.take (i + 1) ++ (ts.drop (i + 1)).take (j - (i + 1)) := by
    rw [← List.take_add]
    congr 1
    omega
  rw [hsplit, sessionRun_append_state]
  exact sessionRun_monitor_persists interval r _ _ hstep
    fun u hu => hrect u (List.drop_subset _ _ (List.take_subset _ _ hu))

/-- C8 witness: a session whose counter stands at 3 picks up the new
rectangle by its 8th subsequent successful tick. -/
theorem c8_witness :
    (sessionRun 1 ⟨3, ⟨0, 0, 1, 1⟩⟩
        ((List.replicate 10 (⟨⟨9, 9, 640, 480⟩, .finite 0, some [], 0⟩ : Tick)).take 8)).1.monitor
      = ⟨9, 9, 640, 480⟩ := by
  refine (c8_bounded_staleness 1 ⟨9, 9, 640, 480⟩ ⟨3, ⟨0, 0, 1, 1⟩⟩
      (List.replicate 10 ⟨⟨9, 9, 640, 480⟩, .finite 0, some [], 0⟩)
      ?_ ?_).2 8 (by norm_num) (by simp)
  · intro tk htk
    rw [List.eq_of_mem_replicate htk]
  · intro tk htk
    rw [List.eq_of_mem_replicate htk]
    rfl

/-- The cross-session shared telemetry counter together with the set
of currently connected sessions: `active` models the global
`active_clients` guarded by `_stats_lock`; `openSessions` records
which session threads are between their increment and their
decrement. -/
structure ClientState where
  active : Int
  openSessions : List Nat
deriving DecidableEq, Repr

/-- The states the client-counter system can reach.  A session start
(`handle_client` entry, lines 198-199) increments `active` exactly
once; session close decrements it exactly once in the `finally`
(lines 258-260), which runs whichever of the write-failure,
unexpected-exception or disconnect paths ended the loop, and only for
a session that is actually open. -/
inductive ClientReachable : ClientState → Prop where
  | init : ClientReachable ⟨0, []⟩
  | connect (s : ClientState) (sid : Nat) (h : ClientReachable s)
      (hfresh : sid ∉ s.openSessions) :
      ClientReachable ⟨s.active + 1, sid :: s.openSessions⟩
  | disconnect (s : ClientState) (sid : Nat) (h : ClientReachable s)
      (hmem : sid ∈ s.openSessions) :
      ClientReachable ⟨s.active - 1, s.openSessions.erase sid⟩

/-- C9: in every reachable state the active-client counter equals
exactly the number of currently connected sessions — so with n
sessions connected it reads n — and in particular it is never
negative. -/
theorem c9_client_counter (s : ClientState) (h : ClientReachable s) :
    s.openSessions.Nodup ∧
    s.active = s.openSessions.length ∧
    0 ≤ s.active := by
  induction h with
  | init => simp
  | connect s sid h hfresh ih =>
      obtain ⟨hnd, hlen, hpos⟩ := ih
      refine ⟨List.nodup_cons.mpr ⟨hfresh, hnd⟩, ?_, ?_⟩
      · simp [hlen]
      · show 0 ≤ s.active + 1
        omega
  | disconnect s sid h hmem ih =>
      obtain ⟨hnd, hlen, hpos⟩ := ih
      have hone : 1 ≤ s.openSessions.length := List.length_pos.mpr
        (List.ne_nil_of_mem hmem)
      refine ⟨hnd.erase sid, ?_, ?_⟩
      · show s.active - 1 = ((s.openSessions.erase sid).length : Int)
        rw [List.length_erase_of_mem hmem]
        omega
      · show 0 ≤ s.active - 1
        omega

/-- C9 witness: two sessions connect, then both disconnect — the
counter reads 2 while both are open and the theorem's invariant holds
at that state. -/
theorem c9_witness :
    ((⟨2, [2, 1]⟩ : ClientState).openSessions.Nodup ∧
     (⟨2, [2, 1]⟩ : ClientState).active
       = ((⟨2, [2, 1]⟩ : ClientState)).openSessions.length ∧
     0 ≤ ((⟨2, [2, 1]⟩ : ClientState)).active) :=
  c9_client_counter ⟨2, [2, 1]⟩
    (ClientReachable.connect ⟨1, [1]⟩ 2
      (ClientReachable.connect ⟨0, []⟩ 1 ClientReachable.init (by simp))
      (by simp))
